import Mathlib

/-!
Shallow embedding of the alpaca-webui front-end logic under verification:
the chat input handlers, the settings form validation and preset badges,
the model-list query function, the upload page validation and submit flow,
and the POST /api/documents route handler.
-/

namespace AlpacaWebui

/-! ## Chat input (components/chat-input.tsx)

`sendChat` trims the textarea value, clears it, and dispatches the trimmed
text to `onSendInput`.  `chatEnterPress` runs on key-up and calls `sendChat`
when the key is Enter without shift and no stream is processing, no fetch is
loading, and an LLM model is active.  `preventEnterPress` runs on key-down
and calls `e.preventDefault()` under exactly the same condition. -/

structure KeyEvent where
  key : String
  shiftKey : Bool
deriving DecidableEq

structure ChatFlags where
  isStreamProcessing : Bool
  isFetchLoading : Bool
  isLlmModelActive : Bool
deriving DecidableEq

/-- The guard shared by `chatEnterPress` and `preventEnterPress`:
key is Enter, shift not held, no stream in flight, no fetch loading,
and a model is active. -/
def enterSendCond (e : KeyEvent) (fl : ChatFlags) : Bool :=
  e.key == "Enter" && !e.shiftKey && !fl.isStreamProcessing && !fl.isFetchLoading &&
    fl.isLlmModelActive

/-- `sendChat`: returns the payload dispatched to `onSendInput` (the trimmed
input) together with the new textarea value (cleared). -/
def sendChat (chatInput : String) : Option String × String :=
  (some chatInput.trim, "")

/-- `chatEnterPress` (the key-up handler): returns the payload dispatched to
the send action (`none` when `sendChat` is not called) and the resulting
textarea value. -/
def chatEnterPress (e : KeyEvent) (fl : ChatFlags) (chatInput : String) :
    Option String × String :=
  if enterSendCond e fl then sendChat chatInput else (none, chatInput)

/-- `preventEnterPress` (the key-down handler): whether `e.preventDefault()`
is called. -/
def preventEnterPress (e : KeyEvent) (fl : ChatFlags) : Bool :=
  enterSendCond e fl

/-! ## Settings form (components/settings/settings-form.tsx)

The zod `SettingsSchema` validates the base URL against
`/^(https?:\/\/)(localhost|[\w-]+(\.[\w-]+)+)(:\d+)?$/`, the API key as
either the empty string or at least 5 characters, and the variant as any
string.  `setFormValues` is the preset-badge click handler. -/

/-- A character of the regex class `[\w-]` (JS `\w` without the `u` flag is
`[A-Za-z0-9_]`, and the class adds `-`). -/
def isWordOrDash (c : Char) : Bool :=
  c == '_' || c == '-' || c.isAlpha || c.isDigit

/-- A nonempty run of `[\w-]` characters, i.e. one host label. -/
def isLabel (cs : List Char) : Bool :=
  !cs.isEmpty && cs.all isWordOrDash

/-- Split a character list at every occurrence of `sep` (separators removed;
adjacent separators yield empty pieces). -/
def splitOnSep (sep : Char) : List Char → List (List Char)
  | [] => [[]]
  | c :: cs =>
    if c == sep then [] :: splitOnSep sep cs
    else
      match splitOnSep sep cs with
      | [] => [[c]]
      | p :: ps => (c :: p) :: ps

/-- The regex alternative `[\w-]+(\.[\w-]+)+`: at least two dot-separated
nonempty `[\w-]` labels. -/
def isDottedHost (cs : List Char) : Bool :=
  let parts := splitOnSep '.' cs
  decide (2 ≤ parts.length) && parts.all isLabel

/-- The host alternation `(localhost|[\w-]+(\.[\w-]+)+)`. -/
def isHost (cs : List Char) : Bool :=
  cs == "localhost".data || isDottedHost cs

/-- The optional port group `(:\d+)?` body: a nonempty digit run. -/
def isPort (cs : List Char) : Bool :=
  !cs.isEmpty && cs.all Char.isDigit

/-- Strip an exact literal prefix, returning the remainder on success. -/
def dropExact : List Char → List Char → Option (List Char)
  | [], cs => some cs
  | _ :: _, [] => none
  | p :: ps, c :: cs => if p == c then dropExact ps cs else none

/-- Match `host(:port)?` at end of string.  Neither the host classes nor the
digits of the port contain a colon, so the string matches exactly when it
splits at colons into a host alone or a host followed by one digit run. -/
def hostPortMatch (cs : List Char) : Bool :=
  match splitOnSep ':' cs with
  | [h] => isHost h
  | [h, p] => isHost h && isPort p
  | _ => false

/-- The anchored regex
`/^(https?:\/\/)(localhost|[\w-]+(\.[\w-]+)+)(:\d+)?$/` from the settings
form, as a decision procedure on the character list. -/
def urlPatternMatch (cs : List Char) : Bool :=
  match dropExact "http://".data cs with
  | some rest => hostPortMatch rest
  | none =>
    match dropExact "https://".data cs with
    | some rest => hostPortMatch rest
    | none => false

/-- `SettingsSchema.url`: the URL field passes validation iff the regex
matches the whole string. -/
def urlFieldValid (s : String) : Bool :=
  urlPatternMatch s.data

/-- `SettingsSchema.apiKey`: `z.union([z.string().min(5), z.literal('')])`. -/
def apiKeyValid (s : String) : Bool :=
  decide (5 ≤ s.length) || s == ""

/-- `SettingsSchema.modelListVariant`: `z.string()` accepts any string. -/
def variantFieldValid (_s : String) : Bool :=
  true

/-- The settings form submits only when every field of `SettingsSchema`
passes validation. -/
def settingsSchemaAccepts (url apiKey variant : String) : Bool :=
  urlFieldValid url && apiKeyValid apiKey && variantFieldValid variant

/-- The two form fields that `setFormValues` and badge clicks touch. -/
structure SettingsFormState where
  url : String
  modelListVariant : String
deriving DecidableEq

/-- `setFormValues(url, modelType)`: fills the URL field and sets the
variant to `ollama`, `openai`, or `manual` according to `modelType`. -/
def setFormValues (s : SettingsFormState) (url modelType : String) :
    SettingsFormState :=
  let s1 : SettingsFormState := { s with url := url }
  if modelType == "ollama" then { s1 with modelListVariant := "ollama" }
  else if modelType == "openai" then { s1 with modelListVariant := "openai" }
  else { s1 with modelListVariant := "manual" }

/-- The `urls` preset list: `(url, modelType)` pairs. -/
def presetUrls : List (String × String) :=
  [("http://localhost:11434", "ollama"),
   ("https://api.openai.com", "openai"),
   ("https://api.together.xyz", "openai"),
   ("https://api.mistral.ai", "openai")]

/-- Clicking a preset badge runs `setFormValues(url.url, url.modelType)`. -/
def clickBadge (s : SettingsFormState) (p : String × String) :
    SettingsFormState :=
  setFormValues s p.1 p.2

/-- Typing in the Base Url input only updates the `url` field; it never
touches `modelListVariant`. -/
def typeUrl (s : SettingsFormState) (url : String) : SettingsFormState :=
  { s with url := url }

/-! ## Model-list resolution (src/hooks/use-model-list.tsx)

The `useQuery` query function switches on the stored `modelVariant`:
`ollama` fetches `api.getTag(baseUrl, embeddedOnly)` and maps each tag to
`{id: model.name, object: 'model', created: 0, type: null}`; `openai`
returns `api.getModelList(baseUrl, token, embeddedOnly)`; `manual` returns
`[]`; anything else falls through to `return []`. -/

/-- One entry of the Ollama `/api/tags` response, as used by the hook. -/
structure OllamaTag where
  name : String
deriving DecidableEq

/-- The common model-descriptor shape `TModelsResponseSchema`:
`{id, object, created, type}`. -/
structure ModelDescriptor where
  id : String
  object : String
  created : Nat
  type : Option String
deriving DecidableEq

/-- A network call issued by the query function. -/
inductive ApiCall where
  | getTag (baseUrl : String)
  | getModelList (baseUrl token : String)
deriving DecidableEq

/-- Modelled from the spec: the body of `api.getModelList` lives in
`src/lib/api`, which is not among the provided sources; per the hook's
declared result type `TModelsResponseSchema` and the spec's contract it
returns the OpenAI-style listing already in the common descriptor shape. -/
def getModelListResult (resp : List ModelDescriptor) : List ModelDescriptor :=
  resp

/-- The `queryFn` of `useModelList`: given the stored variant and the
backend responses, the models returned to the caller and the network calls
made. -/
def queryFn (variant baseUrl token : String) (tagResp : List OllamaTag)
    (openaiResp : List ModelDescriptor) : List ModelDescriptor × List ApiCall :=
  match variant with
  | "ollama" =>
    (tagResp.map fun m => ⟨m.name, "model", 0, none⟩, [ApiCall.getTag baseUrl])
  | "openai" =>
    (getModelListResult openaiResp, [ApiCall.getModelList baseUrl token])
  | "manual" => ([], [])
  | _ => ([], [])

/-! ## Document upload page (src/app/upload/page.tsx)

`formSchema` refines the selected file: size over `30 * 1024 * 1024` bytes
or a MIME type other than `application/pdf` / `text/plain` adds an issue.
`onFileSelected` triggers validation and submits only when it passes.
`onSubmit` POSTs the file, reads the streamed response accumulating
`receivedLength`, and in its `finally` block always raises the success
toast, schedules the fade-out after 2000 ms and the reset after 3000 ms. -/

/-- A file as seen by the browser form: name, byte size, MIME type. -/
structure BrowserFile where
  name : String
  size : Nat
  type : String
deriving DecidableEq

/-- `maxFileSizeMb = 30`. -/
def maxFileSizeMb : Nat := 30

/-- The MIME types `formSchema` accepts. -/
def allowedTypes : List String := ["application/pdf", "text/plain"]

/-- The issues `formSchema.superRefine` adds for a `File` value: one for
size over the limit, one for a disallowed MIME type. -/
def validateFile (f : BrowserFile) : List String :=
  (if maxFileSizeMb * 1024 * 1024 < f.size then
    ["Max file size allowed is 30MB"] else []) ++
  (if allowedTypes.contains f.type then [] else
    ["File must be an document (pdf, txt)"])

/-- `onFileSelected`: validation is triggered and the form is submitted
(leading to the network call in `onSubmit`) exactly when it passes. -/
def onFileSelected (f : BrowserFile) : Bool :=
  (validateFile f).isEmpty

/-- `parseFloat((receivedLength / fileSize).toFixed(2)) * 100`, over ℚ:
`toFixed(2)` rounds to two decimal places and `parseFloat` reads the
decimal back. -/
def computeStep (receivedLength fileSize : Nat) : ℚ :=
  (round ((receivedLength : ℚ) / (fileSize : ℚ) * 100) : ℤ) / 100 * 100

/-- The `receivedLength` accumulator after consuming a list of chunks,
starting from `acc`: each iteration adds `value.length`. -/
def receivedAfter (acc : Nat) : List (List Nat) → Nat
  | [] => acc
  | c :: cs => receivedAfter (acc + c.length) cs

/-- The progress values computed by the read loop, one per chunk, starting
with `receivedLength = acc`. -/
def progressLoop (size acc : Nat) : List (List Nat) → List ℚ
  | [] => []
  | c :: cs => computeStep (acc + c.length) size :: progressLoop size (acc + c.length) cs

/-- The progress values computed over a whole response, with
`receivedLength` starting at 0. -/
def progressSteps (size : Nat) (chunks : List (List Nat)) : List ℚ :=
  progressLoop size 0 chunks

/-- An observable effect of the `onSubmit` handler.  The throttling of
`updateProgress` (lodash, 100 ms) only coalesces which intermediate values
render; it is not modelled. -/
inductive UploadEvent where
  | setFileLoading (b : Bool)
  | progress (value : ℚ)
  | toastSuccess (message description : String)
  | scheduleFadeOut (delayMs : Nat)
  | scheduleReset (delayMs : Nat)
deriving DecidableEq

/-- How the `try` block of `onSubmit` terminates. -/
inductive FetchOutcome where
  | fetchThrew
  | httpError
  | noBody
  | ok (chunks : List (List Nat))
deriving DecidableEq

/-- The events of the `try`/`catch` part of `onSubmit`: only a successful
fetch with a body produces progress updates; a thrown fetch, a non-ok
response (rethrown as `Failed to upload`) and a null reader produce none. -/
def tryEvents (size : Nat) : FetchOutcome → List UploadEvent
  | FetchOutcome.fetchThrew => []
  | FetchOutcome.httpError => []
  | FetchOutcome.noBody => []
  | FetchOutcome.ok chunks => (progressSteps size chunks).map UploadEvent.progress

/-- The events of the `finally` block of `onSubmit`: the success toast
naming the file, the fade-out scheduled at 2000 ms, the reset scheduled at
3000 ms. -/
def finallyEvents (name : String) : List UploadEvent :=
  [UploadEvent.toastSuccess "Document uploaded successfully!" ("File: " ++ name),
   UploadEvent.scheduleFadeOut 2000,
   UploadEvent.scheduleReset 3000]

/-- The full event trace of one `onSubmit` run. -/
def onSubmitEvents (name : String) (size : Nat) (outcome : FetchOutcome) :
    List UploadEvent :=
  UploadEvent.setFileLoading true :: tryEvents size outcome ++ finallyEvents name

/-! ## POST /api/documents (src/app/api/documents/route.ts)

The handler reads `formData.get('file')`; when missing or not a `File` it
returns a 400 `No file uploaded` response without touching any state.
Otherwise it writes the bytes to `./uploads/<name>` (overwriting), inserts
a row `{filename, fileSize}` into `files` (id auto-incremented, timestamp
defaulted, `isEmbedded` false, `embedModel` ''), and returns a default-200
`Response` streaming the received bytes back. -/

/-- A file received by the server: name and content bytes.  Its `size` is
the byte length. -/
structure UploadedFile where
  name : String
  content : List Nat
deriving DecidableEq

/-- `File.size` is the byte length of the content. -/
def UploadedFile.size (f : UploadedFile) : Nat :=
  f.content.length

/-- A multipart form-data value: a file or a plain string field. -/
inductive FormValue where
  | file (f : UploadedFile)
  | str (s : String)
deriving DecidableEq

/-- `formData.get(name)`: the first value stored under `name`. -/
def lookupForm : List (String × FormValue) → String → Option FormValue
  | [], _ => none
  | (n, v) :: rest, name => if n == name then some v else lookupForm rest name

/-- A row of the `files` table (src/db/schema.ts): `id` integer primary key
auto-increment, `filename` not null, `fileSize` nullable, `timestamp`
defaulted to local now, `isEmbedded` defaulted `false`, `embedModel`
nullable defaulted `''`. -/
structure FileRecord where
  id : Nat
  filename : String
  fileSize : Option Nat
  timestamp : String
  isEmbedded : Bool
  embedModel : Option String
deriving DecidableEq

/-- Server-side state: the uploads directory keyed by path, the `files`
table, and the next auto-increment id. -/
structure ServerState where
  disk : List (String × List Nat)
  db : List FileRecord
  nextId : Nat
deriving DecidableEq

/-- `fs.writeFile`: create or silently overwrite the entry at `path`. -/
def writeDisk : List (String × List Nat) → String → List Nat →
    List (String × List Nat)
  | [], path, bs => [(path, bs)]
  | (p, old) :: rest, path, bs =>
    if p == path then (path, bs) :: rest else (p, old) :: writeDisk rest path bs

/-- Read back the entry at `path`. -/
def lookupDisk : List (String × List Nat) → String → Option (List Nat)
  | [], _ => none
  | (p, bs) :: rest, path => if p == path then some bs else lookupDisk rest path

/-- An HTTP response body: plain text or a byte stream. -/
inductive Body where
  | text (s : String)
  | stream (bytes : List Nat)
deriving DecidableEq

/-- An HTTP response: status and body. -/
structure HttpResponse where
  status : Nat
  body : Body
deriving DecidableEq

/-- The bytes a streamed response delivers (a text body delivers its
UTF-8 bytes; only the stream case matters to the upload client). -/
def responseBytes (r : HttpResponse) : List Nat :=
  match r.body with
  | Body.text s => s.toUTF8.toList.map UInt8.toNat
  | Body.stream bs => bs

/-- The `POST` handler of /api/documents: response and new server state.
`now` stands for the row's defaulted local timestamp. -/
def POST (form : List (String × FormValue)) (now : String) (st : ServerState) :
    HttpResponse × ServerState :=
  match lookupForm form "file" with
  | some (FormValue.file f) =>
    let disk := writeDisk st.disk ("./uploads/" ++ f.name) f.content
    let db := st.db ++
      [{ id := st.nextId, filename := f.name, fileSize := some f.size,
         timestamp := now, isEmbedded := false, embedModel := some "" }]
    (⟨200, Body.stream f.content⟩, ⟨disk, db, st.nextId + 1⟩)
  | _ => (⟨400, Body.text "No file uploaded"⟩, st)

end AlpacaWebui

namespace AlpacaWebui

/-! ## Theorems -/

/-- C1 counterexample: with an Enter keypress (no shift) while a stream is
in flight, the send action is indeed not invoked, but `preventDefault` is
NOT called — the claim asserts the keystroke's default effect is prevented
in this case, which is false.  `e.preventDefault()` runs under exactly the
send condition, i.e. only when no stream is in flight, no fetch is loading,
and a model is active. -/
theorem chatEnterPress_claim_counterexample :
    ¬ ((chatEnterPress ⟨"Enter", false⟩ ⟨true, false, true⟩ "hi").1 = none ∧
       preventEnterPress ⟨"Enter", false⟩ ⟨true, false, true⟩ = true) := by
  decide

/-- C1 (amended): for every Enter keypress without shift: if a stream is in
flight, a fetch is loading, or no model is active, the send action is not
invoked and the default effect is NOT prevented; otherwise the default
effect is prevented and the trimmed input is dispatched to the send
action. -/
theorem chatEnterPress_spec (e : KeyEvent) (fl : ChatFlags) (input : String)
    (hk : e.key = "Enter") (hs : e.shiftKey = false) :
    ((fl.isStreamProcessing = true ∨ fl.isFetchLoading = true ∨
        fl.isLlmModelActive = false) →
      (chatEnterPress e fl input).1 = none ∧ preventEnterPress e fl = false) ∧
    (fl.isStreamProcessing = false → fl.isFetchLoading = false →
        fl.isLlmModelActive = true →
      (chatEnterPress e fl input).1 = some input.trim ∧
        preventEnterPress e fl = true) := by
  obtain ⟨k, sh⟩ := e
  obtain ⟨st, fe, ml⟩ := fl
  simp only at hk hs
  subst hk hs
  cases st <;> cases fe <;> cases ml <;>
    simp [chatEnterPress, preventEnterPress, enterSendCond, sendChat]

/-- C1 witness: concrete instance of `chatEnterPress_spec` on the blocked
branch (stream in flight). -/
theorem chatEnterPress_spec_witness :
    (chatEnterPress ⟨"Enter", false⟩ ⟨true, false, true⟩ "hi").1 = none ∧
    preventEnterPress ⟨"Enter", false⟩ ⟨true, false, true⟩ = false :=
  (chatEnterPress_spec ⟨"Enter", false⟩ ⟨true, false, true⟩ "hi" rfl rfl).1
    (Or.inl rfl)

/-- C2: every terminating `onSubmit` run — the fetch threw, the response was
non-ok, the body reader was null, or the stream was consumed — ends with the
success toast naming the file, the fade-out scheduled 2000 ms later, and the
full reset scheduled 3000 ms later. -/
theorem onSubmit_finally_spec (name : String) (size : Nat)
    (outcome : FetchOutcome) :
    ∃ before, onSubmitEvents name size outcome =
      before ++
      [UploadEvent.toastSuccess "Document uploaded successfully!"
         ("File: " ++ name),
       UploadEvent.scheduleFadeOut 2000,
       UploadEvent.scheduleReset 3000] :=
  ⟨UploadEvent.setFileLoading true :: tryEvents size outcome, by
    simp [onSubmitEvents, finallyEvents]⟩

/-- C3: clicking a preset badge sets the URL field to the badge's URL and
the variant to "ollama" for the localhost:11434 preset and "openai" for the
OpenAI, Together and Mistral presets; typing a URL manually never changes
the variant (so with variant "manual" it stays "manual"). -/
theorem preset_badge_variant_spec (s : SettingsFormState) (url : String) :
    (∀ p ∈ presetUrls, (clickBadge s p).url = p.1 ∧
      (clickBadge s p).modelListVariant =
        if p.1 = "http://localhost:11434" then "ollama" else "openai") ∧
    (typeUrl s url).modelListVariant = s.modelListVariant := by
  refine ⟨?_, rfl⟩
  intro p hp
  simp only [presetUrls, List.mem_cons, List.not_mem_nil, or_false] at hp
  rcases hp with h | h | h | h <;> subst h <;> exact ⟨rfl, rfl⟩

/-- C3 witness: concrete instances of `preset_badge_variant_spec` for the
Ollama preset and the Together preset. -/
theorem preset_badge_variant_spec_witness :
    (clickBadge ⟨"", ""⟩ ("http://localhost:11434", "ollama")).modelListVariant
        = "ollama" ∧
    (clickBadge ⟨"", ""⟩ ("https://api.together.xyz", "openai")).modelListVariant
        = "openai" :=
  ⟨(((preset_badge_variant_spec ⟨"", ""⟩ "x").1
      ("http://localhost:11434", "ollama") (by decide)).2).trans (by decide),
   (((preset_badge_variant_spec ⟨"", ""⟩ "x").1
      ("https://api.together.xyz", "openai") (by decide)).2).trans (by decide)⟩

/-- C4: the model-list query function returns the empty list with no network
call for variant "manual", the empty list for any unrecognized variant, the
tag response normalized to `{id, object, created, type}` for "ollama", and
the (already common-shaped) listing for "openai". -/
theorem queryFn_variant_spec (baseUrl token : String) (tags : List OllamaTag)
    (ms : List ModelDescriptor) :
    queryFn "manual" baseUrl token tags ms = ([], []) ∧
    (∀ v, v ≠ "ollama" → v ≠ "openai" →
      (queryFn v baseUrl token tags ms).1 = []) ∧
    queryFn "ollama" baseUrl token tags ms =
      (tags.map fun m => ⟨m.name, "model", 0, none⟩,
       [ApiCall.getTag baseUrl]) ∧
    queryFn "openai" baseUrl token tags ms =
      (ms, [ApiCall.getModelList baseUrl token]) := by
  refine ⟨rfl, ?_, rfl, rfl⟩
  intro v h1 h2
  unfold queryFn
  split
  · exact absurd rfl h1
  · exact absurd rfl h2
  · rfl
  · rfl

/-- C4 witness: concrete instance of `queryFn_variant_spec` at the
unrecognized variant "foo". -/
theorem queryFn_variant_spec_witness :
    (queryFn "foo" "http://localhost:11434" "tok" [] []).1 = [] :=
  (queryFn_variant_spec "http://localhost:11434" "tok" [] []).2.1 "foo"
    (by decide) (by decide)

/-- C5: a selected file whose size exceeds 30 * 1024 * 1024 bytes or whose
MIME type is neither application/pdf nor text/plain fails validation with a
field-level issue and is not submitted (no network call); a pdf or
plain-text file of size at most 30 MB passes validation and is
submitted. -/
theorem file_validation_spec (f : BrowserFile) :
    ((maxFileSizeMb * 1024 * 1024 < f.size ∨ f.type ∉ allowedTypes) →
      validateFile f ≠ [] ∧ onFileSelected f = false) ∧
    (f.type ∈ allowedTypes → f.size ≤ maxFileSizeMb * 1024 * 1024 →
      validateFile f = [] ∧ onFileSelected f = true) := by
  constructor
  · rintro (h | h) <;>
      refine ⟨?_, ?_⟩ <;>
      simp [validateFile, onFileSelected, h, List.isEmpty_iff]
  · intro hmem hsize
    have hnotlt : ¬ maxFileSizeMb * 1024 * 1024 < f.size := not_lt.mpr hsize
    refine ⟨?_, ?_⟩ <;>
      simp [validateFile, onFileSelected, hnotlt, hmem, List.isEmpty_iff]

/-- C5 witness: concrete instances of `file_validation_spec`: a png file is
rejected without submission, a small plain-text file passes and is
submitted. -/
theorem file_validation_spec_witness :
    (validateFile ⟨"a.bin", 10, "image/png"⟩ ≠ [] ∧
      onFileSelected ⟨"a.bin", 10, "image/png"⟩ = false) ∧
    (validateFile ⟨"a.txt", 10, "text/plain"⟩ = [] ∧
      onFileSelected ⟨"a.txt", 10, "text/plain"⟩ = true) :=
  ⟨(file_validation_spec ⟨"a.bin", 10, "image/png"⟩).1 (Or.inr (by decide)),
   (file_validation_spec ⟨"a.txt", 10, "text/plain"⟩).2 (by decide) (by decide)⟩

/-- C6: POST /api/documents returns 400 with the plain-text body
`No file uploaded` and leaves all server state unchanged when the form has
no `file` field holding a File; otherwise it returns a 200 response whose
body streams back exactly the received bytes. -/
theorem documents_POST_spec (form : List (String × FormValue)) (now : String)
    (st : ServerState) :
    ((∀ f, lookupForm form "file" ≠ some (FormValue.file f)) →
      (POST form now st).1 = ⟨400, Body.text "No file uploaded"⟩ ∧
      (POST form now st).2 = st) ∧
    (∀ f, lookupForm form "file" = some (FormValue.file f) →
      (POST form now st).1.status = 200 ∧
      (POST form now st).1.body = Body.stream f.content ∧
      responseBytes (POST form now st).1 = f.content) := by
  constructor
  · intro h
    cases hl : lookupForm form "file" with
    | none => simp [POST, hl]
    | some v =>
      cases v with
      | file f => exact absurd hl (h f)
      | str s => simp [POST, hl]
  · intro f hf
    simp [POST, hf, responseBytes]

/-- C6 witness: concrete instances of `documents_POST_spec`: a form with
only a string field gets a 400 and unchanged state; a form with a file gets
a 200 echoing the bytes. -/
theorem documents_POST_spec_witness :
    ((POST [("x", FormValue.str "y")] "t" ⟨[], [], 0⟩).1 =
        ⟨400, Body.text "No file uploaded"⟩ ∧
      (POST [("x", FormValue.str "y")] "t" ⟨[], [], 0⟩).2 = ⟨[], [], 0⟩) ∧
    ((POST [("file", FormValue.file ⟨"a.txt", [1, 2]⟩)] "t" ⟨[], [], 0⟩).1.status
        = 200 ∧
      (POST [("file", FormValue.file ⟨"a.txt", [1, 2]⟩)] "t" ⟨[], [], 0⟩).1.body
        = Body.stream [1, 2] ∧
      responseBytes
        (POST [("file", FormValue.file ⟨"a.txt", [1, 2]⟩)] "t" ⟨[], [], 0⟩).1
        = [1, 2]) :=
  ⟨(documents_POST_spec [("x", FormValue.str "y")] "t" ⟨[], [], 0⟩).1
      (by intro f; simp [lookupForm]),
   (documents_POST_spec [("file", FormValue.file ⟨"a.txt", [1, 2]⟩)] "t"
      ⟨[], [], 0⟩).2 ⟨"a.txt", [1, 2]⟩ (by decide)⟩

/-- A string is empty iff its length is zero. -/
theorem string_length_eq_zero_iff (s : String) : s.length = 0 ↔ s = "" := by
  rw [show s.length = s.data.length from rfl, List.length_eq_zero]
  exact ⟨fun h => by cases s; simp_all, fun h => by simp [h]⟩

/-- C7: the API key field accepts exactly the strings of length 0 or at
least 5; for every key of length 1-4 the settings form rejects
submission. -/
theorem apiKey_validation_spec (s : String) :
    (apiKeyValid s = true ↔ (s.length = 0 ∨ 5 ≤ s.length)) ∧
    (∀ url variant, 1 ≤ s.length → s.length ≤ 4 →
      settingsSchemaAccepts url s variant = false) := by
  have hempty : (s == "") = true ↔ s.length = 0 := by
    rw [beq_iff_eq, ← string_length_eq_zero_iff]
  constructor
  · constructor
    · intro h
      rcases Bool.or_eq_true_iff.mp h with h | h
      · exact Or.inr (of_decide_eq_true h)
      · exact Or.inl (hempty.mp h)
    · rintro (h | h)
      · exact Bool.or_eq_true_iff.mpr (Or.inr (hempty.mpr h))
      · exact Bool.or_eq_true_iff.mpr (Or.inl (decide_eq_true h))
  · intro url variant h1 h4
    have hkey : apiKeyValid s = false := by
      apply Bool.eq_false_iff.mpr
      intro htrue
      rcases Bool.or_eq_true_iff.mp htrue with h | h
      · have := of_decide_eq_true h; omega
      · have := hempty.mp h; omega
    simp [settingsSchemaAccepts, hkey]

/-- C7 witness: concrete instance of `apiKey_validation_spec`: the 3-letter
key "abc" makes the form reject. -/
theorem apiKey_validation_spec_witness :
    settingsSchemaAccepts "http://localhost" "abc" "manual" = false :=
  (apiKey_validation_spec "abc").2 "http://localhost" "manual"
    (by decide) (by decide)

/-- C8: whenever the base URL fails the anchored
`http(s)://host[:port]`-with-no-trailing-path regex, the settings form
rejects the submission whatever the other fields hold. -/
theorem url_validation_rejects (url : String)
    (hurl : urlFieldValid url = false) :
    ∀ apiKey variant, settingsSchemaAccepts url apiKey variant = false := by
  intro apiKey variant
  simp [settingsSchemaAccepts, hurl]

/-- C8 witness: concrete instance of `url_validation_rejects` at a URL with
a trailing path. -/
theorem url_validation_rejects_witness :
    settingsSchemaAccepts "http://localhost:11434/v1" "" "ollama" = false :=
  url_validation_rejects "http://localhost:11434/v1" (by decide) "" "ollama"

/-- `receivedAfter` accumulates the total chunk length. -/
theorem receivedAfter_eq (cs : List (List Nat)) :
    ∀ acc, receivedAfter acc cs = acc + (cs.map List.length).sum := by
  induction cs with
  | nil => intro acc; simp [receivedAfter]
  | cons c cs ih => intro acc; simp [receivedAfter, ih]; omega

/-- The last progress value computed over a nonempty chunk list is the one
for the final accumulated `receivedLength`. -/
theorem progressLoop_getLast (size : Nat) (cs : List (List Nat)) :
    ∀ acc, cs ≠ [] →
      (progressLoop size acc cs).getLast? =
        some (computeStep (receivedAfter acc cs) size) := by
  induction cs with
  | nil => intro acc h; exact absurd rfl h
  | cons c cs ih =>
    intro acc _
    cases cs with
    | nil => rfl
    | cons d ds =>
      have h2 : progressLoop size acc (c :: d :: ds) =
          computeStep (acc + c.length) size ::
            (computeStep (acc + c.length + d.length) size ::
              progressLoop size (acc + c.length + d.length) ds) := rfl
      rw [h2, List.getLast?_cons_cons]
      exact ih (acc + c.length) (by simp)

/-- C9: for a positive-size upload, the route streams the uploaded bytes
back, so however the client's reader chunks the response, the accumulated
`receivedLength` equals the file's size when the stream ends and the last
computed progress value is exactly 100. -/
theorem upload_roundtrip_progress (f : UploadedFile) (st : ServerState)
    (now : String) (chunks : List (List Nat))
    (hpos : 0 < f.content.length)
    (hbody : chunks.flatten =
      responseBytes (POST [("file", FormValue.file f)] now st).1) :
    receivedAfter 0 chunks = f.size ∧
    (progressSteps f.size chunks).getLast? = some 100 := by
  have hresp : responseBytes (POST [("file", FormValue.file f)] now st).1 =
      f.content := rfl
  rw [hresp] at hbody
  have hlen : receivedAfter 0 chunks = f.content.length := by
    rw [receivedAfter_eq, ← hbody, List.length_flatten]
    omega
  have hne : chunks ≠ [] := by
    intro h
    subst h
    simp at hbody
    rw [hbody] at hpos
    simp at hpos
  refine ⟨hlen, ?_⟩
  rw [progressSteps, progressLoop_getLast f.size chunks 0 hne, hlen]
  have hq : (f.content.length : ℚ) ≠ 0 := Nat.cast_ne_zero.mpr hpos.ne'
  show some (computeStep f.content.length f.content.length) = some 100
  unfold computeStep
  rw [div_self hq, one_mul]
  norm_num

/-- C9 witness: concrete instance of `upload_roundtrip_progress` for a
3-byte file read back in chunks of 1 and 2 bytes. -/
theorem upload_roundtrip_progress_witness :
    receivedAfter 0 [[1], [2, 3]] = (UploadedFile.mk "a.txt" [1, 2, 3]).size ∧
    (progressSteps (UploadedFile.mk "a.txt" [1, 2, 3]).size
        [[1], [2, 3]]).getLast? = some 100 :=
  upload_roundtrip_progress ⟨"a.txt", [1, 2, 3]⟩ ⟨[], [], 0⟩ "t" [[1], [2, 3]]
    (by decide) (by decide)

/-- Reading back the path just written yields the new bytes (the write
silently overwrites any previous entry). -/
theorem lookupDisk_writeDisk (d : List (String × List Nat)) (path : String)
    (bs : List Nat) : lookupDisk (writeDisk d path bs) path = some bs := by
  induction d with
  | nil => simp [writeDisk, lookupDisk]
  | cons e rest ih =>
    obtain ⟨p, old⟩ := e
    cases hb : p == path with
    | true => simp [writeDisk, lookupDisk, hb]
    | false => simp [writeDisk, lookupDisk, hb, ih]

/-- C10: a successful POST /api/documents always appends a fresh row —
id the next auto-increment value, `isEmbedded` false, `embedModel` the
empty string — with no uniqueness check on filenames, and the on-disk write
to ./uploads/<name> leaves exactly the new bytes there, overwriting any
previous file of that name. -/
theorem documents_POST_always_inserts (f : UploadedFile) (st : ServerState)
    (now : String) (hid : ∀ r ∈ st.db, r.id < st.nextId) :
    (POST [("file", FormValue.file f)] now st).2.db =
      st.db ++ [{ id := st.nextId, filename := f.name, fileSize := some f.size,
                  timestamp := now, isEmbedded := false,
                  embedModel := some "" }] ∧
    (∀ r ∈ st.db, r.id ≠ st.nextId) ∧
    lookupDisk (POST [("file", FormValue.file f)] now st).2.disk
      ("./uploads/" ++ f.name) = some f.content ∧
    (POST [("file", FormValue.file f)] now st).2.nextId = st.nextId + 1 := by
  refine ⟨rfl, fun r hr => (hid r hr).ne, ?_, rfl⟩
  exact lookupDisk_writeDisk st.disk ("./uploads/" ++ f.name) f.content

/-- C10 witness: concrete instance of `documents_POST_always_inserts` where
a row and a disk entry for the same filename already exist: a second row is
still inserted with the next id and the disk entry is overwritten. -/
theorem documents_POST_always_inserts_witness :
    (POST [("file", FormValue.file ⟨"a.txt", [1, 2]⟩)] "t1"
        ⟨[("./uploads/a.txt", [9])],
         [{ id := 0, filename := "a.txt", fileSize := some 1,
            timestamp := "t0", isEmbedded := false, embedModel := some "" }],
         1⟩).2.db =
      [{ id := 0, filename := "a.txt", fileSize := some 1, timestamp := "t0",
         isEmbedded := false, embedModel := some "" },
       { id := 1, filename := "a.txt", fileSize := some 2, timestamp := "t1",
         isEmbedded := false, embedModel := some "" }] ∧
    lookupDisk
      (POST [("file", FormValue.file ⟨"a.txt", [1, 2]⟩)] "t1"
        ⟨[("./uploads/a.txt", [9])],
         [{ id := 0, filename := "a.txt", fileSize := some 1,
            timestamp := "t0", isEmbedded := false, embedModel := some "" }],
         1⟩).2.disk "./uploads/a.txt" = some [1, 2] := by
  have h := documents_POST_always_inserts ⟨"a.txt", [1, 2]⟩
    ⟨[("./uploads/a.txt", [9])],
     [{ id := 0, filename := "a.txt", fileSize := some 1, timestamp := "t0",
        isEmbedded := false, embedModel := some "" }], 1⟩ "t1" (by decide)
  exact ⟨h.1, h.2.2.1⟩

end AlpacaWebui
